import Mathlib

/-!
Verification of the hawaiidisco article store (src/hawaiidisco/db.py), the
feed reconciler (src/hawaiidisco/fetcher.py) and the digest cache
(src/hawaiidisco/digest.py), as a shallow embedding.

The SQLite database is modelled as an in-memory record of the three tables
(articles, bookmarks, digests) together with the autoincrement counters.
Timestamps are seconds since the epoch (`Nat`); SQLite stores datetimes as
sortable text, so chronological comparison of stored values coincides with
comparison of these numbers.  SQLite's `LIKE` operator (ASCII
case-insensitive, with an optional escape character) is modelled by an
executable matcher `likeMatchAux`.
-/

namespace HawaiiDisco

/-- ASCII lower-casing, as performed by SQLite's `LIKE` comparison. -/
def lcase (c : Char) : Char :=
  if 'A' ≤ c ∧ c ≤ 'Z' then Char.ofNat (c.toNat + 32) else c

/-- Character comparison used by SQLite `LIKE`: ASCII case-insensitive. -/
def charEq (a b : Char) : Bool := lcase a == lcase b

/-- `anySuffix f t` is true when `f` holds of some suffix of `t`
(including `t` itself and the empty suffix). -/
def anySuffix (f : List Char → Bool) : List Char → Bool
  | [] => f []
  | t@(_ :: ts) => f t || anySuffix f ts

/-- SQLite `LIKE` pattern matching.  `esc = true` models `LIKE ... ESCAPE
char92` (the pattern character backslash quotes the following pattern
character); `esc = false` models a plain `LIKE` with no escape clause.
`percent` matches any sequence, `underscore` any single character, and any
other character matches itself ASCII case-insensitively. -/
def likeMatchAux (esc : Bool) : List Char → List Char → Bool
  | [], t => t.isEmpty
  | c :: ps, [] =>
    if c = '%' then anySuffix (fun u => likeMatchAux esc ps u) [] else false
  | c :: ps, d :: ts =>
    if c = '%' then anySuffix (fun u => likeMatchAux esc ps u) (d :: ts)
    else if esc ∧ c = '\\' then
      match ps with
      | pc :: ps2 => charEq pc d && likeMatchAux esc ps2 ts
      | [] => false
    else if c = '_' then likeMatchAux esc ps ts
    else charEq c d && likeMatchAux esc ps ts

/-- `LIKE ... ESCAPE` with backslash, as used by `Database.get_articles`. -/
def likeMatch : List Char → List Char → Bool := likeMatchAux true

/-- Plain `LIKE` with no escape clause, as used by
`Database.get_articles_by_tag`. -/
def likeMatchNE : List Char → List Char → Bool := likeMatchAux false

/-- One `str.replace` call of a single character by a string,
restricted to single-character needles (all the source uses). -/
def replaceChar (x : Char) (r : List Char) : List Char → List Char
  | [] => []
  | c :: s => (if c = x then r else [c]) ++ replaceChar x r s

/-- The escaping in `Database.get_articles`:
`search.replace(bs, bsbs).replace(pct, bspct).replace(us, bsus)`
where bs, pct, us are backslash, percent and underscore. -/
def escapeLike (s : List Char) : List Char :=
  replaceChar '_' ['\\', '_']
    (replaceChar '%' ['\\', '%']
      (replaceChar '\\' ['\\', '\\'] s))

/-- How `escapeLike` treats one character (helper for reasoning). -/
def escChar (c : Char) : List Char :=
  if c = '\\' ∨ c = '%' ∨ c = '_' then ['\\', c] else [c]

/-- Case-insensitively consume `s` as a literal prefix of `t`, returning
the remainder on success. -/
def consumeCI : List Char → List Char → Option (List Char)
  | [], t => some t
  | _ :: _, [] => none
  | c :: s, d :: t => if charEq c d then consumeCI s t else none

/-- `s` occurs as a contiguous (ASCII case-insensitive) substring of `t`:
the literal-match semantics that escaped LIKE patterns must realise. -/
def containsCI (s t : List Char) : Bool :=
  anySuffix (fun u => (consumeCI s u).isSome) t

/-- Substring-containment reading of one optional searched column
(a NULL column contains nothing). -/
def opt_contains (s : String) : Option String → Bool
  | none => false
  | some v => containsCI s.data v.data

/-- A row of the `articles` table (src/hawaiidisco/db.py `Article`). -/
structure ArticleRow where
  id : String
  feed_name : String
  title : String
  link : String
  description : Option String
  published_at : Option Nat
  fetched_at : Nat
  is_read : Bool
  is_bookmarked : Bool
  insight : Option String
  translated_title : Option String
  translated_desc : Option String
  translated_body : Option String
deriving DecidableEq

/-- A row of the `bookmarks` table. -/
structure BookmarkRow where
  id : Nat
  article_id : String
  bookmarked_at : Nat
  tags : Option String
  memo : Option String
deriving DecidableEq

/-- Modelled from the spec: a row of the `digests` table, which is missing
from src/hawaiidisco/db.py (only src/hawaiidisco/digest.py and the tests
refer to it).  Spec section 6: auto-incrementing primary key, period_days,
article_count, content, created_at. -/
structure DigestRow where
  id : Nat
  period_days : Nat
  article_count : Nat
  content : String
  created_at : Nat
deriving DecidableEq

/-- The whole database state: the three tables plus the autoincrement
counters for the two surrogate-key tables. -/
structure DB where
  articles : List ArticleRow
  bookmarks : List BookmarkRow
  digests : List DigestRow
  next_bookmark_id : Nat
  next_digest_id : Nat
deriving DecidableEq

/-- A freshly created database (schema applied, no rows). -/
def emptyDB : DB := ⟨[], [], [], 1, 1⟩

/-- `DigestConfig` from src/hawaiidisco/config.py. -/
structure DigestConfig where
  enabled : Bool := true
  period_days : Nat := 7
  max_articles : Nat := 20
  bookmarked_only : Bool := false
  save_to_obsidian : Bool := true

/-- The comparison realised by `ORDER BY published_at DESC, fetched_at
DESC`: publish time descending with SQLite NULLs sorting last under DESC,
fetch time descending as the tie-break. -/
def articleLe (a b : ArticleRow) : Bool :=
  match a.published_at, b.published_at with
  | some x, some y =>
    if x = y then decide (b.fetched_at ≤ a.fetched_at) else decide (y < x)
  | some _, none => true
  | none, some _ => false
  | none, none => decide (b.fetched_at ≤ a.fetched_at)

/-- `articleLe` as a relation, for the sorting lemmas. -/
def ArtLe (a b : ArticleRow) : Prop := articleLe a b = true

instance : DecidableRel ArtLe := fun a b => instDecidableEqBool (articleLe a b) true

instance : IsTotal ArticleRow ArtLe := by
  constructor
  intro a b
  unfold ArtLe articleLe
  rcases a.published_at with _ | x <;> rcases b.published_at with _ | y <;> simp <;>
    (try split_ifs) <;> omega

instance : IsTrans ArticleRow ArtLe := by
  constructor
  intro a b c
  unfold ArtLe articleLe
  rcases a.published_at with _ | x <;> rcases b.published_at with _ | y <;>
    rcases c.published_at with _ | z <;> simp <;> intros <;>
    (try split_ifs at *) <;> omega

/-- The search pattern built by `Database.get_articles`:
percent, then the escaped search text, then percent. -/
def search_pattern (s : String) : List Char :=
  '%' :: (escapeLike s.data ++ ['%'])

/-- One `column LIKE ? ESCAPE` disjunct; a NULL column never matches
(SQL `NULL LIKE p` is not true). -/
def field_like (s : String) : Option String → Bool
  | none => false
  | some v => likeMatch (search_pattern s) v.data

/-- The five-field OR-combined search condition of `Database.get_articles`:
title, description, insight, translated_title, translated_desc. -/
def search_match (s : String) (a : ArticleRow) : Bool :=
  field_like s (some a.title) || field_like s a.description ||
    field_like s a.insight || field_like s a.translated_title ||
    field_like s a.translated_desc

/-- The default result cap of `Database.get_articles`. -/
def DEFAULT_LIMIT : Nat := 200

/-- The WHERE clause of `Database.get_articles`.  Python treats an empty
string for `feed_name` or `search` as an absent filter (`if feed_name:`,
`if search:`), hence the emptiness tests. -/
def articleFilter (bookmarked_only : Bool) (search : Option String)
    (feed_name : Option String) (unread_only : Bool) : ArticleRow → Bool :=
  fun a =>
    (!bookmarked_only || a.is_bookmarked) &&
    (!unread_only || !a.is_read) &&
    (match feed_name with
     | none => true
     | some f => f.isEmpty || a.feed_name == f) &&
    (match search with
     | none => true
     | some s => s.isEmpty || search_match s a)

/-- `Database.get_articles`: filter, `ORDER BY published_at DESC,
fetched_at DESC`, then `LIMIT`. -/
def get_articles (db : DB) (bookmarked_only : Bool := false)
    (search : Option String := none) (feed_name : Option String := none)
    (unread_only : Bool := false) (limit : Nat := DEFAULT_LIMIT) :
    List ArticleRow :=
  (List.insertionSort ArtLe
    (db.articles.filter (articleFilter bookmarked_only search feed_name unread_only))).take limit

/-- `Database.get_article`: lookup by primary key. -/
def get_article (db : DB) (article_id : String) : Option ArticleRow :=
  db.articles.find? (fun a => a.id == article_id)

/-- `Database.upsert_article`: `INSERT OR IGNORE`; returns whether a row was
newly inserted (`cursor.rowcount > 0`).  A fresh row gets the defaults of
the schema: `fetched_at` = now, flags 0, insight and translations NULL. -/
def upsert_article (db : DB) (article_id feed_name title link : String)
    (description : Option String) (published_at : Option Nat) (now : Nat) :
    DB × Bool :=
  if db.articles.any (fun a => a.id == article_id) then (db, false)
  else
    ({db with articles := db.articles ++
        [⟨article_id, feed_name, title, link, description, published_at,
          now, false, false, none, none, none, none⟩]}, true)

/-- `Database.mark_read`. -/
def mark_read (db : DB) (article_id : String) : DB :=
  {db with articles := db.articles.map (fun a =>
    if a.id == article_id then {a with is_read := true} else a)}

/-- `Database.toggle_bookmark`: flips the article flag and creates or
deletes the satellite bookmarks row; returns the new state, or `false`
without touching anything when the article does not exist. -/
def toggle_bookmark (db : DB) (article_id : String) (now : Nat) : DB × Bool :=
  match get_article db article_id with
  | none => (db, false)
  | some article =>
    let new_state := !article.is_bookmarked
    let articles := db.articles.map (fun a =>
      if a.id == article_id then {a with is_bookmarked := new_state} else a)
    if new_state then
      ({db with
          articles := articles
          bookmarks := db.bookmarks ++
            [⟨db.next_bookmark_id, article_id, now, none, none⟩]
          next_bookmark_id := db.next_bookmark_id + 1}, new_state)
    else
      ({db with
          articles := articles
          bookmarks := db.bookmarks.filter
            (fun b => !(b.article_id == article_id))}, new_state)

/-- `Database.set_insight`. -/
def set_insight (db : DB) (article_id : String) (insight : String) : DB :=
  {db with articles := db.articles.map (fun a =>
    if a.id == article_id then {a with insight := some insight} else a)}

/-- `Database.set_translation`. -/
def set_translation (db : DB) (article_id title desc : String) : DB :=
  {db with articles := db.articles.map (fun a =>
    if a.id == article_id then
      {a with translated_title := some title, translated_desc := some desc}
    else a)}

/-- `Database.set_translated_body`. -/
def set_translated_body (db : DB) (article_id body : String) : DB :=
  {db with articles := db.articles.map (fun a =>
    if a.id == article_id then {a with translated_body := some body} else a)}

/-- `Database.set_bookmark_memo` (an UPDATE; touches only existing rows). -/
def set_bookmark_memo (db : DB) (article_id memo : String) : DB :=
  {db with bookmarks := db.bookmarks.map (fun b =>
    if b.article_id == article_id then {b with memo := some memo} else b)}

/-- `Database.get_bookmark_memo`: the memo column of the bookmarks row for
the article, or `none` when no row exists (Python flattens a NULL memo and
a missing row into the same `None`). -/
def get_bookmark_memo (db : DB) (article_id : String) : Option String :=
  match db.bookmarks.find? (fun b => b.article_id == article_id) with
  | none => none
  | some b => b.memo

/-- `Database.set_bookmark_tags`: joins the trimmed non-empty tags with
commas, storing NULL for an empty result. -/
def set_bookmark_tags (db : DB) (article_id : String) (tags : List String) :
    DB :=
  let joined := String.intercalate ","
    ((tags.map (fun t => t.trim)).filter (fun t => !t.isEmpty))
  let value : Option String := if joined.isEmpty then none else some joined
  {db with bookmarks := db.bookmarks.map (fun b =>
    if b.article_id == article_id then {b with tags := value} else b)}

/-- `Database.delete_articles_by_feed`: deletes dependent bookmarks rows
first, then the articles rows; returns the articles DELETE rowcount. -/
def delete_articles_by_feed (db : DB) (feed_name : String) : DB × Nat :=
  let doomed := db.articles.filter (fun a => a.feed_name == feed_name)
  let bookmarks := db.bookmarks.filter
    (fun b => !(doomed.any (fun a => a.id == b.article_id)))
  let kept := db.articles.filter (fun a => !(a.feed_name == feed_name))
  ({db with articles := kept, bookmarks := bookmarks}, doomed.length)

/-- The WHERE clause of `Database.get_articles_by_tag`: `tags = ?` (binary,
case-sensitive) or one of three un-escaped LIKE patterns (tag-comma prefix,
comma-tag-comma interior, comma-tag suffix); a NULL tags column matches
nothing. -/
def tag_token_match (tag : String) : Option String → Bool
  | none => false
  | some ts =>
    ts == tag ||
    likeMatchNE (tag.data ++ [',', '%']) ts.data ||
    likeMatchNE ('%' :: ',' :: (tag.data ++ [',', '%'])) ts.data ||
    likeMatchNE ('%' :: ',' :: tag.data) ts.data

/-- `Database.get_articles_by_tag`: the articles-bookmarks join filtered by
`tag_token_match`, ordered like `get_articles` (no LIMIT). -/
def get_articles_by_tag (db : DB) (tag : String) : List ArticleRow :=
  List.insertionSort ArtLe
    (db.articles.flatMap (fun a =>
      ((db.bookmarks.filter (fun b =>
          b.article_id == a.id && tag_token_match tag b.tags)).map
        (fun _ => a))))

/-- `ORDER BY b.bookmarked_at DESC, b.id DESC` of
`Database.get_recent_bookmarked_articles`. -/
def bookmarkLe (b c : BookmarkRow) : Bool :=
  if b.bookmarked_at = c.bookmarked_at then decide (c.id ≤ b.id)
  else decide (c.bookmarked_at < b.bookmarked_at)

/-- `bookmarkLe` as a relation. -/
def BmLe (b c : BookmarkRow) : Prop := bookmarkLe b c = true

instance : DecidableRel BmLe := fun b c => instDecidableEqBool (bookmarkLe b c) true

/-- `Database.get_recent_bookmarked_articles`: bookmarks of the trailing
`days`-day window, most recently bookmarked first, joined back to their
articles. -/
def get_recent_bookmarked_articles (db : DB) (days : Nat) (now : Nat) :
    List ArticleRow :=
  (List.insertionSort BmLe
    (db.bookmarks.filter (fun b => now ≤ b.bookmarked_at + days * 86400))).flatMap
    (fun b => db.articles.filter (fun a => a.id == b.article_id))

/-- Modelled from the spec: `saveDigest(periodDays, articleCount, content)
returns digestId` (spec section 4.1); the method is missing from
src/hawaiidisco/db.py, only src/hawaiidisco/digest.py and the tests call
it.  Appends a digests row stamped with the current time and returns its
auto-incremented id. -/
def save_digest (db : DB) (period_days article_count : Nat)
    (content : String) (now : Nat) : DB × Nat :=
  ({db with
      digests := db.digests ++
        [⟨db.next_digest_id, period_days, article_count, content, now⟩],
      next_digest_id := db.next_digest_id + 1}, db.next_digest_id)

/-- Modelled from the spec: `getLatestDigest(periodDays)` returns the most
recent digest by creation time for that period key regardless of
freshness, or None when none exists (spec section 4.1); the method is
missing from src/hawaiidisco/db.py.  Ties on creation time go to the later
row. -/
def get_latest_digest (db : DB) (period_days : Nat) : Option DigestRow :=
  (db.digests.filter (fun d => d.period_days == period_days)).foldl
    (fun acc d =>
      match acc with
      | none => some d
      | some best => if best.created_at ≤ d.created_at then some d else some best)
    none

/-- Modelled from the spec: the recent-articles candidate source of the
digest generator ("recent articles generally", capped at maxArticles, spec
section 4.4 step 3); `Database.get_recent_articles` is missing from
src/hawaiidisco/db.py, only src/hawaiidisco/digest.py calls it.  Takes the
articles of the trailing window (by publish time, falling back to fetch
time), most recent first, capped. -/
def get_recent_articles (db : DB) (days : Nat) (limit : Nat) (now : Nat) :
    List ArticleRow :=
  (List.insertionSort ArtLe
    (db.articles.filter (fun a =>
      now ≤ (a.published_at.getD a.fetched_at) + days * 86400))).take limit

/-- The two failure modes of `get_or_generate_digest`
(`ValueError(t("no_recent_articles_for_digest"))` and
`ValueError(t("digest_generation_failed"))`). -/
inductive DigestError where
  | noArticles
  | generationFailed
deriving DecidableEq

/-- The candidate gathering of src/hawaiidisco/digest.py lines 66-71:
recent bookmarked articles capped at max_articles when bookmarked_only,
else recent articles generally. -/
def digest_candidates (db : DB) (config : DigestConfig) (now : Nat) :
    List ArticleRow :=
  if config.bookmarked_only then
    (get_recent_bookmarked_articles db config.period_days now).take
      config.max_articles
  else get_recent_articles db config.period_days config.max_articles now

/-- `get_or_generate_digest` of src/hawaiidisco/digest.py.  The AI
collaborator (provider availability plus `generate_digest`) is abstracted
as `gen`, a function from the candidate articles to an optional digest
text; a `none` or empty result is the Python falsy `content`.  Returns the
updated database together with (content, article_count). -/
def get_or_generate_digest (db : DB) (gen : List ArticleRow → Option String)
    (config : DigestConfig) (now : Nat) :
    Except DigestError (DB × String × Nat) :=
  let proceed : Except DigestError (DB × String × Nat) :=
    let articles := digest_candidates db config now
    if articles.isEmpty then .error .noArticles
    else
      match gen articles with
      | none => .error .generationFailed
      | some content =>
        if content.isEmpty then .error .generationFailed
        else
          .ok ((save_digest db config.period_days articles.length content
            now).1, content, articles.length)
  match get_latest_digest db config.period_days with
  | some cached =>
    if now - cached.created_at < 86400 then
      .ok (db, cached.content, cached.article_count)
    else proceed
  | none => proceed

/-- Index of the first closing angle bracket, if any (helper for the tag
stripper). -/
def findGt : List Char → Option Nat
  | [] => none
  | c :: s => if c = '>' then some 0 else (findGt s).map (fun i => i + 1)

/-- The HTML tag stripping of src/hawaiidisco/fetcher.py line 71: every
leftmost occurrence of an opening angle bracket, one or more
non-closing-bracket characters, then a closing bracket, is removed. -/
def strip_tags : List Char → List Char
  | [] => []
  | c :: s =>
    if c = '<' then
      match h : findGt s with
      | some i => if 1 ≤ i then strip_tags (s.drop (i + 1)) else c :: strip_tags s
      | none => c :: strip_tags s
    else c :: strip_tags s
termination_by l => l.length
decreasing_by all_goals (simp [List.length_drop] <;> omega)

/-- One parsed feed entry, as the feed-parsing collaborator yields it
(spec section 6): the fields src/hawaiidisco/fetcher.py reads. -/
structure Entry where
  guid : Option String
  link : Option String
  title : Option String
  summary : Option String
  description : Option String
  published_parsed : Option Nat
  updated_parsed : Option Nat

/-- `entry.get("id") or entry.get("link", "")` (Python `or` also skips an
empty string). -/
def entry_guid (e : Entry) : String :=
  match e.guid with
  | some g => if g.isEmpty then e.link.getD "" else g
  | none => e.link.getD ""

/-- `_make_article_id`: the id is the (sha256, truncated) hash of
"feed_name:guid"; the hash itself is an external one-way function,
abstracted as `hashFn`. -/
def make_article_id (hashFn : String → String) (e : Entry)
    (feed_name : String) : String :=
  hashFn (feed_name ++ ":" ++ entry_guid e)

/-- `entry.get("summary", entry.get("description", ""))`. -/
def entry_description (e : Entry) : String :=
  (e.summary.getD (e.description.getD ""))

/-- The description post-processing of `fetch_feed`: when non-empty, strip
HTML tags, trim whitespace, and truncate to 500 characters plus an
ellipsis marker. -/
def prepare_description (e : Entry) : String :=
  let description := entry_description e
  if description.isEmpty then description
  else
    let stripped := (String.mk (strip_tags description.data)).trim
    if stripped.length > 500 then stripped.take 500 ++ "..." else stripped

/-- `_parse_published`: the published timestamp if present, else the
updated timestamp, else none. -/
def parse_published (e : Entry) : Option Nat :=
  match e.published_parsed with
  | some ts => some ts
  | none => e.updated_parsed

/-- The entry loop of `fetch_feed`: upserts each entry and counts the ones
actually newly inserted.  `noTitle` is the localized no-title placeholder
of the excluded i18n layer. -/
def fetch_entries (hashFn : String → String) (noTitle : String)
    (feed_name : String) (now : Nat) : DB → List Entry → DB × Nat
  | db, [] => (db, 0)
  | db, e :: es =>
    let r := upsert_article db (make_article_id hashFn e feed_name) feed_name
      (e.title.getD noTitle) (e.link.getD "") (some (prepare_description e))
      (parse_published e) now
    let rest := fetch_entries hashFn noTitle feed_name now r.1 es
    (rest.1, (if r.2 then 1 else 0) + rest.2)

/-- `fetch_all_feeds`: each configured feed is a name together with its
parse outcome (`Except.error` models an exception raised while fetching or
reconciling that feed, which the loop catches, logs and skips).  Returns
the total count of newly inserted articles. -/
def fetch_all_feeds (hashFn : String → String) (noTitle : String)
    (now : Nat) : DB → List (String × Except Unit (List Entry)) → DB × Nat
  | db, [] => (db, 0)
  | db, (_, Except.error _) :: feeds => fetch_all_feeds hashFn noTitle now db feeds
  | db, (name, Except.ok entries) :: feeds =>
    let r := fetch_entries hashFn noTitle name now db entries
    let rest := fetch_all_feeds hashFn noTitle now r.1 feeds
    (rest.1, r.2 + rest.2)

/-- The structural database invariant: article ids are unique (PRIMARY
KEY plus insert-or-ignore), every bookmarks row references an existing
article, and an article is flagged bookmarked exactly when a bookmarks row
references it. -/
def Inv (db : DB) : Prop :=
  db.articles.Pairwise (fun a b => a.id ≠ b.id) ∧
  (∀ b ∈ db.bookmarks, ∃ a ∈ db.articles, a.id = b.article_id) ∧
  (∀ a ∈ db.articles,
    (a.is_bookmarked = true ↔ ∃ b ∈ db.bookmarks, b.article_id = a.id))

/-- The database states reachable from a fresh database through the
Store's public mutating operations. -/
inductive Reachable : DB → Prop where
  | init : Reachable emptyDB
  | upsert (db : DB) (article_id feed_name title link : String)
      (description : Option String) (published_at : Option Nat) (now : Nat) :
      Reachable db →
      Reachable (upsert_article db article_id feed_name title link
        description published_at now).1
  | markRead (db : DB) (article_id : String) :
      Reachable db → Reachable (mark_read db article_id)
  | toggle (db : DB) (article_id : String) (now : Nat) :
      Reachable db → Reachable (toggle_bookmark db article_id now).1
  | setInsight (db : DB) (article_id insight : String) :
      Reachable db → Reachable (set_insight db article_id insight)
  | setTranslation (db : DB) (article_id title desc : String) :
      Reachable db → Reachable (set_translation db article_id title desc)
  | setTranslatedBody (db : DB) (article_id body : String) :
      Reachable db → Reachable (set_translated_body db article_id body)
  | setMemo (db : DB) (article_id memo : String) :
      Reachable db → Reachable (set_bookmark_memo db article_id memo)
  | setTags (db : DB) (article_id : String) (tags : List String) :
      Reachable db → Reachable (set_bookmark_tags db article_id tags)
  | deleteFeed (db : DB) (feed_name : String) :
      Reachable db → Reachable (delete_articles_by_feed db feed_name).1
  | saveDigest (db : DB) (period_days article_count : Nat)
      (content : String) (now : Nat) :
      Reachable db →
      Reachable (save_digest db period_days article_count content now).1

/-- A bookmarked article tagged "python,tech", for the tag exact-match
example of spec section 8. -/
def exTagArticle : ArticleRow :=
  ⟨"a1", "feedX", "T1", "L1", none, some 100, 50, false, true, none, none,
    none, none⟩

/-- A database holding `exTagArticle` with its bookmarks row. -/
def exTagDB : DB :=
  ⟨[exTagArticle], [⟨1, "a1", 60, some "python,tech", none⟩], [], 2, 1⟩

/-- Article titled "100 percent Pure Python", for the search-escaping
example of spec section 8. -/
def exSearchArticle1 : ArticleRow :=
  ⟨"s1", "feedX", "100% Pure Python", "L1", none, some 100, 50, false,
    false, none, none, none, none⟩

/-- Article titled "Python Tips", for the search-escaping example. -/
def exSearchArticle2 : ArticleRow :=
  ⟨"s2", "feedX", "Python Tips", "L2", none, some 200, 60, false, false,
    none, none, none, none⟩

/-- A database holding the two search-example articles. -/
def exSearchDB : DB := ⟨[exSearchArticle1, exSearchArticle2], [], [], 1, 1⟩

/-- A two-feed database with a bookmark on each feed, for the cascade
delete example. -/
def exDeleteDB : DB :=
  ⟨[⟨"d1", "feedA", "TA", "LA", none, some 100, 50, false, true, none,
      none, none, none⟩,
    ⟨"d2", "feedB", "TB", "LB", none, some 200, 60, false, true, none,
      none, none, none⟩],
   [⟨1, "d1", 70, none, some "memo-a"⟩, ⟨2, "d2", 80, none, some "memo-b"⟩],
   [], 3, 1⟩

/-- A database with one stored digest for period 7, created at time 90000. -/
def exDigestDB : DB :=
  ⟨[⟨"g1", "feedX", "TG", "LG", none, some 99000, 99000, false, false,
      none, none, none, none⟩],
   [], [⟨1, 7, 4, "cached digest", 90000⟩], 1, 2⟩

/-- A database with one recent article and no digests. -/
def exFreshDB : DB :=
  ⟨[⟨"g1", "feedX", "TG", "LG", none, some 99000, 99000, false, false,
      none, none, none, none⟩],
   [], [], 1, 1⟩

/-! ## Theorems -/

theorem fetch_all_feeds_skip_error (hashFn : String → String)
    (noTitle : String) (now : Nat) :
    ∀ (fs1 : List (String × Except Unit (List Entry))) (db : DB)
      (name : String) (fs2 : List (String × Except Unit (List Entry))),
      fetch_all_feeds hashFn noTitle now db
          (fs1 ++ (name, Except.error ()) :: fs2) =
        fetch_all_feeds hashFn noTitle now db (fs1 ++ fs2) := by
  intro fs1
  induction fs1 with
  | nil => intro db name fs2; rfl
  | cons f fs ih =>
    intro db name fs2
    rcases f with ⟨n, u | es⟩ <;> simp [fetch_all_feeds, ih]

/-- C9: `fetch_all_feeds` processes feeds independently: a feed whose fetch
raised is skipped while the remaining feeds proceed on the same database,
and a successful feed contributes exactly its count of newly inserted
entries to the returned total, each entry counting one exactly when its
`upsert_article` reported a new insertion. -/
theorem fetch_all_feeds_isolates_failures (hashFn : String → String)
    (noTitle : String) (now : Nat) :
    (∀ (fs1 : List (String × Except Unit (List Entry))) (db : DB)
      (name : String) (fs2 : List (String × Except Unit (List Entry))),
      fetch_all_feeds hashFn noTitle now db
          (fs1 ++ (name, Except.error ()) :: fs2) =
        fetch_all_feeds hashFn noTitle now db (fs1 ++ fs2)) ∧
    (∀ (db : DB) (name : String) (entries : List Entry)
      (feeds : List (String × Except Unit (List Entry))),
      fetch_all_feeds hashFn noTitle now db ((name, Except.ok entries) :: feeds) =
        ((fetch_all_feeds hashFn noTitle now
            (fetch_entries hashFn noTitle name now db entries).1 feeds).1,
         (fetch_entries hashFn noTitle name now db entries).2 +
           (fetch_all_feeds hashFn noTitle now
             (fetch_entries hashFn noTitle name now db entries).1 feeds).2)) ∧
    (∀ (db : DB) (name : String) (e : Entry) (entries : List Entry),
      fetch_entries hashFn noTitle name now db (e :: entries) =
        ((fetch_entries hashFn noTitle name now
            (upsert_article db (make_article_id hashFn e name) name
              (e.title.getD noTitle) (e.link.getD "")
              (some (prepare_description e)) (parse_published e) now).1
            entries).1,
         (if (upsert_article db (make_article_id hashFn e name) name
              (e.title.getD noTitle) (e.link.getD "")
              (some (prepare_description e)) (parse_published e) now).2
          then 1 else 0) +
           (fetch_entries hashFn noTitle name now
             (upsert_article db (make_article_id hashFn e name) name
               (e.title.getD noTitle) (e.link.getD "")
               (some (prepare_description e)) (parse_published e) now).1
             entries).2)) := by
  refine ⟨fetch_all_feeds_skip_error hashFn noTitle now, ?_, ?_⟩
  · intro db name entries feeds; rfl
  · intro db name e entries; rfl

/-- C2: `upsert_article` is insert-or-ignore: an existing id returns false
and leaves the whole database (every column of every row) unchanged; a
fresh id returns true and appends exactly one row carrying the given
values and the schema defaults. -/
theorem upsert_article_insert_or_ignore (db : DB)
    (article_id feed_name title link : String) (description : Option String)
    (published_at : Option Nat) (now : Nat) :
    ((∃ a ∈ db.articles, a.id = article_id) →
      upsert_article db article_id feed_name title link description
        published_at now = (db, false)) ∧
    ((∀ a ∈ db.articles, a.id ≠ article_id) →
      upsert_article db article_id feed_name title link description
          published_at now =
        ({db with articles := db.articles ++
            [⟨article_id, feed_name, title, link, description, published_at,
              now, false, false, none, none, none, none⟩]}, true) ∧
      ((upsert_article db article_id feed_name title link description
          published_at now).1.articles).length = db.articles.length + 1) := by
  constructor
  · intro h
    have hany : db.articles.any (fun a => a.id == article_id) = true := by
      rcases h with ⟨a, ha, hid⟩
      exact List.any_eq_true.mpr ⟨a, ha, beq_iff_eq.mpr hid⟩
    simp [upsert_article, hany]
  · intro h
    have hany : db.articles.any (fun a => a.id == article_id) = false := by
      rw [List.any_eq_false]
      intro a ha
      simpa using h a ha
    constructor
    · simp [upsert_article, hany]
    · simp [upsert_article, hany]

/-- Closed instance of C2: upserting the already-present id "g1" into
`exFreshDB` is a no-op returning false; a fresh id returns true. -/
theorem upsert_article_insert_or_ignore_witness :
    upsert_article exFreshDB "g1" "f" "t" "l" none none 5 = (exFreshDB, false) ∧
    (upsert_article exFreshDB "n2" "f" "t" "l" none none 5).2 = true := by
  constructor
  · exact (upsert_article_insert_or_ignore exFreshDB "g1" "f" "t" "l" none
      none 5).1 (by decide)
  · rw [((upsert_article_insert_or_ignore exFreshDB "n2" "f" "t" "l" none
      none 5).2 (by decide)).1]

/-- C10: toggling a nonexistent article id returns false and leaves the
database entirely unchanged; by return value alone this is
indistinguishable from toggling an existing bookmarked article off, which
also returns false. -/
theorem toggle_bookmark_missing_id (db : DB) (article_id : String)
    (now : Nat) :
    ((∀ a ∈ db.articles, a.id ≠ article_id) →
      toggle_bookmark db article_id now = (db, false)) ∧
    (∀ a, get_article db article_id = some a → a.is_bookmarked = true →
      (toggle_bookmark db article_id now).2 = false) := by
  constructor
  · intro h
    have hnone : get_article db article_id = none := by
      rw [get_article, List.find?_eq_none]
      intro a ha
      simpa using h a ha
    simp [toggle_bookmark, hnone]
  · intro a ha hbm
    simp [toggle_bookmark, ha, hbm]

/-- Closed instance of C10: toggling the absent id "zz" on the empty
database is a no-op returning false, and so does toggling the bookmarked
article of `exTagDB` off. -/
theorem toggle_bookmark_missing_id_witness :
    toggle_bookmark emptyDB "zz" 3 = (emptyDB, false) ∧
    (toggle_bookmark exTagDB "a1" 99).2 = false := by
  constructor
  · exact (toggle_bookmark_missing_id emptyDB "zz" 3).1 (by decide)
  · exact (toggle_bookmark_missing_id exTagDB "a1" 99).2 exTagArticle
      (by decide) (by decide)

/-- C8: `delete_articles_by_feed` returns the count of deleted article
rows, removes exactly the articles of the feed, leaves only bookmarks of
surviving articles, and afterwards reading a deleted article's memo
returns none. -/
theorem delete_articles_by_feed_cascades (db : DB) (feed_name : String) :
    (delete_articles_by_feed db feed_name).2 =
      (db.articles.filter (fun a => a.feed_name == feed_name)).length ∧
    (∀ a ∈ db.articles, a.feed_name = feed_name →
      a ∉ (delete_articles_by_feed db feed_name).1.articles ∧
      get_bookmark_memo (delete_articles_by_feed db feed_name).1 a.id =
        none) ∧
    (∀ b ∈ (delete_articles_by_feed db feed_name).1.bookmarks,
      b ∈ db.bookmarks ∧
      ∀ a ∈ db.articles, a.id = b.article_id → a.feed_name ≠ feed_name) ∧
    (∀ a, a ∈ (delete_articles_by_feed db feed_name).1.articles ↔
      a ∈ db.articles ∧ a.feed_name ≠ feed_name) := by
  refine ⟨rfl, ?_, ?_, ?_⟩
  · intro a ha hfeed
    constructor
    · intro hmem
      rw [delete_articles_by_feed] at hmem
      simp only [List.mem_filter] at hmem
      exact absurd (beq_iff_eq.mpr hfeed) (by simpa using hmem.2)
    · rw [delete_articles_by_feed, get_bookmark_memo]
      have : (db.bookmarks.filter (fun b =>
          !((db.articles.filter (fun x => x.feed_name == feed_name)).any
            (fun x => x.id == b.article_id)))).find?
          (fun b => b.article_id == a.id) = none := by
        rw [List.find?_eq_none]
        intro b hb
        simp only [List.mem_filter, Bool.not_eq_true', List.any_eq_false,
          List.mem_filter] at hb
        intro hba
        exact absurd (beq_iff_eq.mpr (beq_iff_eq.mp hba).symm)
          (by simpa using hb.2 a ⟨ha, beq_iff_eq.mpr hfeed⟩)
      simp only [this]
  · intro b hb
    rw [delete_articles_by_feed] at hb
    simp only [List.mem_filter, Bool.not_eq_true', List.any_eq_false,
      List.mem_filter] at hb
    refine ⟨hb.1, ?_⟩
    intro a ha hid hfeed
    exact absurd (beq_iff_eq.mpr hid)
      (by simpa using hb.2 a ⟨ha, beq_iff_eq.mpr hfeed⟩)
  · intro a
    rw [delete_articles_by_feed]
    simp [List.mem_filter]

/-- Closed instance of C8: deleting feedA from `exDeleteDB` removes one
article and its bookmark, so the deleted article's memo reads none while
the other feed's bookmark row survives. -/
theorem delete_articles_by_feed_cascades_witness :
    (delete_articles_by_feed exDeleteDB "feedA").2 = 1 ∧
    get_bookmark_memo (delete_articles_by_feed exDeleteDB "feedA").1 "d1" =
      none := by
  constructor
  · rw [(delete_articles_by_feed_cascades exDeleteDB "feedA").1]; decide
  · exact ((delete_articles_by_feed_cascades exDeleteDB "feedA").2.1
      ⟨"d1", "feedA", "TA", "LA", none, some 100, 50, false, true, none,
        none, none, none⟩ (by decide) rfl).2

theorem anySuffix_congr {f g : List Char → Bool} (h : ∀ u, f u = g u) :
    ∀ t, anySuffix f t = anySuffix g t := by
  intro t
  induction t with
  | nil => simp [anySuffix, h]
  | cons c ts ih => simp [anySuffix, h, ih]

theorem anySuffix_of_nil {f : List Char → Bool} (h : f [] = true) :
    ∀ t, anySuffix f t = true := by
  intro t
  induction t with
  | nil => simpa [anySuffix]
  | cons c ts ih => simp [anySuffix, ih]

theorem replaceChar_append (x : Char) (r a b : List Char) :
    replaceChar x r (a ++ b) = replaceChar x r a ++ replaceChar x r b := by
  induction a with
  | nil => rfl
  | cons c s ih => simp [replaceChar, ih]

theorem escapeLike_cons (c : Char) (s : List Char) :
    escapeLike (c :: s) = escChar c ++ escapeLike s := by
  by_cases h1 : c = '\\'
  · subst h1
    simp [escapeLike, escChar, replaceChar, replaceChar_append]
  · by_cases h2 : c = '%'
    · subst h2
      simp [escapeLike, escChar, replaceChar, replaceChar_append]
    · by_cases h3 : c = '_'
      · subst h3
        simp [escapeLike, escChar, replaceChar, replaceChar_append]
      · simp [escapeLike, escChar, replaceChar, replaceChar_append, h1, h2,
          h3]

theorem likeAux_pct (esc : Bool) (ps t : List Char) :
    likeMatchAux esc ('%' :: ps) t =
      anySuffix (fun u => likeMatchAux esc ps u) t := by
  cases t with
  | nil => rw [likeMatchAux.eq_2, if_pos rfl]
  | cons d ts =>
    cases ps with
    | nil => rw [likeMatchAux.eq_4, if_pos rfl]
    | cons pc ps2 => rw [likeMatchAux.eq_3, if_pos rfl]

theorem likeAux_esc_nil (c : Char) (rest : List Char) :
    likeMatchAux true ('\\' :: c :: rest) [] = false := by
  rw [likeMatchAux.eq_2, if_neg (by decide)]

theorem likeAux_esc_cons (c : Char) (rest : List Char) (d : Char)
    (ts : List Char) :
    likeMatchAux true ('\\' :: c :: rest) (d :: ts) =
      (charEq c d && likeMatchAux true rest ts) := by
  rw [likeMatchAux.eq_3, if_neg (by decide), if_pos ⟨rfl, rfl⟩]

theorem likeAux_plain_nil (esc : Bool) (c : Char) (ps : List Char)
    (h2 : c ≠ '%') :
    likeMatchAux esc (c :: ps) [] = false := by
  rw [likeMatchAux.eq_2, if_neg h2]

theorem likeAux_plain_cons (esc : Bool) (c : Char) (ps : List Char)
    (h2 : c ≠ '%') (hesc : ¬(esc ∧ c = '\\')) (h3 : c ≠ '_')
    (d : Char) (ts : List Char) :
    likeMatchAux esc (c :: ps) (d :: ts) =
      (charEq c d && likeMatchAux esc ps ts) := by
  cases ps with
  | nil => rw [likeMatchAux.eq_4, if_neg h2, if_neg hesc, if_neg h3]
  | cons pc ps2 => rw [likeMatchAux.eq_3, if_neg h2, if_neg hesc, if_neg h3]

theorem likeMatch_pct (ps t : List Char) :
    likeMatch ('%' :: ps) t = anySuffix (fun u => likeMatch ps u) t :=
  likeAux_pct true ps t

theorem likeMatch_pct_only (t : List Char) : likeMatch ['%'] t = true := by
  rw [likeMatch_pct]
  exact anySuffix_of_nil rfl t

theorem likeMatch_escaped_nil (c : Char) (rest : List Char) :
    likeMatch (escChar c ++ rest) [] = false := by
  by_cases hm : c = '\\' ∨ c = '%' ∨ c = '_'
  · rw [show escChar c = ['\\', c] from if_pos hm]
    exact likeAux_esc_nil c rest
  · push_neg at hm
    rw [show escChar c = [c] from if_neg (by tauto)]
    exact likeAux_plain_nil true c rest hm.2.1

theorem likeMatch_escaped_cons (c : Char) (rest : List Char) (d : Char)
    (ts : List Char) :
    likeMatch (escChar c ++ rest) (d :: ts) =
      (charEq c d && likeMatch rest ts) := by
  by_cases hm : c = '\\' ∨ c = '%' ∨ c = '_'
  · rw [show escChar c = ['\\', c] from if_pos hm]
    exact likeAux_esc_cons c rest d ts
  · push_neg at hm
    rw [show escChar c = [c] from if_neg (by tauto)]
    exact likeAux_plain_cons true c rest hm.2.1 (by simp [hm.1]) hm.2.2 d ts

theorem likeMatch_escape_append (s : List Char) :
    ∀ (p u : List Char), likeMatch (escapeLike s ++ p) u =
      Option.elim (consumeCI s u) false (fun r => likeMatch p r) := by
  induction s with
  | nil =>
    intro p u
    rw [show escapeLike [] = [] from rfl]
    rfl
  | cons c s ih =>
    intro p u
    rw [escapeLike_cons, List.append_assoc]
    cases u with
    | nil =>
      rw [likeMatch_escaped_nil]
      rfl
    | cons d ts =>
      rw [likeMatch_escaped_cons]
      by_cases hq : charEq c d = true
      · rw [hq, Bool.true_and, ih p ts, consumeCI.eq_3, if_pos hq]
      · have hq2 : charEq c d = false := by simpa using hq
        rw [hq2, Bool.false_and, consumeCI.eq_3, if_neg hq]
        rfl

theorem search_pattern_contains (s t : List Char) :
    likeMatch ('%' :: (escapeLike s ++ ['%'])) t = containsCI s t := by
  rw [likeMatch_pct, containsCI]
  apply anySuffix_congr
  intro u
  rw [likeMatch_escape_append]
  cases h : consumeCI s u with
  | none => rfl
  | some r => simp [likeMatch_pct_only]

theorem field_like_eq_opt_contains (s : String) (o : Option String) :
    field_like s o = opt_contains s o := by
  cases o with
  | none => rfl
  | some v => exact search_pattern_contains s.data v.data

/-- C6: the search text is escaped so that LIKE metacharacters are inert:
for every search string the pattern built by `get_articles` matches a
column value exactly when the raw search text occurs in it as a literal
(case-insensitive) substring, and the search condition is that test
OR-combined over title, description, insight, translated_title and
translated_desc; concretely, searching for a literal percent matches
"100% Pure Python" but not "Python Tips". -/
theorem get_articles_search_escaping :
    (∀ s t : String,
      likeMatch (search_pattern s) t.data = containsCI s.data t.data) ∧
    (∀ (s : String) (a : ArticleRow), search_match s a =
      (containsCI s.data a.title.data || opt_contains s a.description ||
       opt_contains s a.insight || opt_contains s a.translated_title ||
       opt_contains s a.translated_desc)) ∧
    search_match "%" exSearchArticle1 = true ∧
    search_match "%" exSearchArticle2 = false := by
  refine ⟨fun s t => search_pattern_contains s.data t.data, ?_, by decide,
    by decide⟩
  intro s a
  rw [search_match, field_like_eq_opt_contains, field_like_eq_opt_contains,
    field_like_eq_opt_contains, field_like_eq_opt_contains,
    field_like_eq_opt_contains]
  rfl

/-- C5: `get_articles_by_tag` returns exactly the joined bookmarked
articles whose tags column matches the queried tag by one of the four
whole-token patterns (binary equality, tag-comma prefix, comma-tag-comma
interior, comma-tag suffix); in particular, a tag that is merely a
substring of a stored tag matches nothing: querying "py" misses the
article tagged "python,tech" while querying "tech" returns it. -/
theorem get_articles_by_tag_exact_token :
    (∀ (db : DB) (tag : String) (a : ArticleRow),
      a ∈ get_articles_by_tag db tag ↔
        a ∈ db.articles ∧ ∃ b ∈ db.bookmarks, b.article_id = a.id ∧
          tag_token_match tag b.tags = true) ∧
    get_articles_by_tag exTagDB "py" = [] ∧
    get_articles_by_tag exTagDB "tech" = [exTagArticle] := by
  refine ⟨?_, by decide, by decide⟩
  intro db tag a
  rw [get_articles_by_tag, List.mem_insertionSort, List.mem_flatMap]
  constructor
  · rintro ⟨a2, ha2, hmem⟩
    rw [List.mem_map] at hmem
    obtain ⟨b, hb, hba⟩ := hmem
    rw [List.mem_filter] at hb
    have hb2 := hb.2
    rw [Bool.and_eq_true] at hb2
    subst hba
    exact ⟨ha2, b, hb.1, beq_iff_eq.mp hb2.1, hb2.2⟩
  · rintro ⟨ha, b, hb, hid, htag⟩
    refine ⟨a, ha, ?_⟩
    rw [List.mem_map]
    refine ⟨b, ?_, rfl⟩
    rw [List.mem_filter]
    refine ⟨hb, ?_⟩
    rw [Bool.and_eq_true]
    exact ⟨beq_iff_eq.mpr hid, htag⟩

/-- C7: `get_articles` returns at most `limit` rows (the cap defaulting to
200), every returned row comes from the articles table and satisfies the
composed filter, the result is sorted by the two-column comparison, and
that comparison means publish time descending with fetch time descending
as the secondary key, articles without a publish time sorting after all
articles with one and among themselves by fetch time descending. -/
theorem get_articles_ordered_and_capped :
    DEFAULT_LIMIT = 200 ∧
    (∀ (db : DB) (b : Bool) (s f : Option String) (u : Bool) (lim : Nat),
      (get_articles db b s f u lim).length ≤ lim) ∧
    (∀ (db : DB) (b : Bool) (s f : Option String) (u : Bool) (lim : Nat),
      (get_articles db b s f u lim).Pairwise ArtLe) ∧
    (∀ (db : DB) (b : Bool) (s f : Option String) (u : Bool) (lim : Nat)
      (a : ArticleRow), a ∈ get_articles db b s f u lim →
        a ∈ db.articles ∧ articleFilter b s f u a = true) ∧
    (∀ a b : ArticleRow, ArtLe a b ↔
      (match a.published_at, b.published_at with
       | some x, some y => y < x ∨ (x = y ∧ b.fetched_at ≤ a.fetched_at)
       | some _, none => True
       | none, some _ => False
       | none, none => b.fetched_at ≤ a.fetched_at)) := by
  refine ⟨rfl, ?_, ?_, ?_, ?_⟩
  · intro db b s f u lim
    exact List.length_take_le lim _
  · intro db b s f u lim
    exact (List.sorted_insertionSort ArtLe _).sublist (List.take_sublist _ _)
  · intro db b s f u lim a ha
    have h2 := List.mem_of_mem_take ha
    rw [List.mem_insertionSort, List.mem_filter] at h2
    exact h2
  · intro a b
    unfold ArtLe articleLe
    rcases a.published_at with _ | x <;> rcases b.published_at with _ | y <;>
      simp <;> (try split_ifs with h) <;> simp [h] <;> omega

/-- Closed instance of C7: the percent search on `exSearchDB` yields the
percent-titled article, which the theorem certifies is a stored article
passing the filter. -/
theorem get_articles_ordered_and_capped_witness :
    exSearchArticle1 ∈ exSearchDB.articles ∧
    articleFilter false (some "%") none false exSearchArticle1 = true :=
  get_articles_ordered_and_capped.2.2.2.1 exSearchDB false (some "%") none
    false 200 exSearchArticle1 (by decide)

theorem latestFold_spec :
    ∀ (L : List DigestRow) (acc : Option DigestRow) (x : DigestRow),
      L.foldl (fun acc d =>
        match acc with
        | none => some d
        | some best =>
          if best.created_at ≤ d.created_at then some d else some best)
        acc = some x →
      (acc = some x ∨ x ∈ L) ∧ (∀ e ∈ L, e.created_at ≤ x.created_at) ∧
        (∀ b, acc = some b → b.created_at ≤ x.created_at) := by
  intro L
  induction L with
  | nil =>
    intro acc x h
    rw [List.foldl_nil] at h
    refine ⟨Or.inl h, by simp, ?_⟩
    intro b hb
    rw [h] at hb
    cases hb
    exact le_refl _
  | cons d L ih =>
    intro acc x h
    rw [List.foldl_cons] at h
    cases acc with
    | none =>
      have h' : L.foldl (fun acc d =>
          match acc with
          | none => some d
          | some best =>
            if best.created_at ≤ d.created_at then some d else some best)
          (some d) = some x := h
      obtain ⟨h1, h2, h3⟩ := ih _ x h'
      have hd : d.created_at ≤ x.created_at := h3 d rfl
      refine ⟨?_, ?_, ?_⟩
      · rcases h1 with h1 | h1
        · cases h1; exact Or.inr (List.mem_cons_self d L)
        · exact Or.inr (List.mem_cons_of_mem d h1)
      · intro e he
        rcases List.mem_cons.mp he with rfl | he
        · exact hd
        · exact h2 e he
      · intro b hb
        cases hb
    | some best =>
      have h' : L.foldl (fun acc d =>
          match acc with
          | none => some d
          | some best =>
            if best.created_at ≤ d.created_at then some d else some best)
          (if best.created_at ≤ d.created_at then some d else some best) =
          some x := h
      by_cases hle : best.created_at ≤ d.created_at
      · rw [if_pos hle] at h'
        obtain ⟨h1, h2, h3⟩ := ih _ x h'
        have hd : d.created_at ≤ x.created_at := h3 d rfl
        refine ⟨?_, ?_, ?_⟩
        · rcases h1 with h1 | h1
          · cases h1; exact Or.inr (List.mem_cons_self d L)
          · exact Or.inr (List.mem_cons_of_mem d h1)
        · intro e he
          rcases List.mem_cons.mp he with rfl | he
          · exact hd
          · exact h2 e he
        · intro b hb
          cases hb
          exact le_trans hle hd
      · rw [if_neg hle] at h'
        obtain ⟨h1, h2, h3⟩ := ih _ x h'
        have hb : best.created_at ≤ x.created_at := h3 best rfl
        refine ⟨?_, ?_, ?_⟩
        · rcases h1 with h1 | h1
          · exact Or.inl h1
          · exact Or.inr (List.mem_cons_of_mem d h1)
        · intro e he
          rcases List.mem_cons.mp he with rfl | he
          · exact le_trans (le_of_not_le hle) hb
          · exact h2 e he
        · intro b2 hb2
          cases hb2
          exact hb

theorem latestFold_none :
    ∀ (L : List DigestRow) (acc : Option DigestRow),
      L.foldl (fun acc d =>
        match acc with
        | none => some d
        | some best =>
          if best.created_at ≤ d.created_at then some d else some best)
        acc = none →
      acc = none ∧ L = [] := by
  intro L
  induction L with
  | nil =>
    intro acc h
    exact ⟨h, rfl⟩
  | cons d L ih =>
    intro acc h
    rw [List.foldl_cons] at h
    cases acc with
    | none =>
      have h' : L.foldl (fun acc d =>
          match acc with
          | none => some d
          | some best =>
            if best.created_at ≤ d.created_at then some d else some best)
          (some d) = none := h
      obtain ⟨h1, -⟩ := ih _ h'
      cases h1
    | some best =>
      have h' : L.foldl (fun acc d =>
          match acc with
          | none => some d
          | some best =>
            if best.created_at ≤ d.created_at then some d else some best)
          (if best.created_at ≤ d.created_at then some d else some best) =
          none := h
      by_cases hle : best.created_at ≤ d.created_at
      · rw [if_pos hle] at h'
        obtain ⟨h1, -⟩ := ih _ h'
        cases h1
      · rw [if_neg hle] at h'
        obtain ⟨h1, -⟩ := ih _ h'
        cases h1

/-- C4 (spec-modelled): the Store's digest persistence operations:
`save_digest` appends exactly one digests row holding period_days,
article_count, content and created_at and returns its auto-incremented
id, and `get_latest_digest` returns the most recent digest by creation
time for the period key regardless of freshness, or none exactly when no
digest with that period exists. -/
theorem digest_persistence_ops :
    (∀ (db : DB) (p n : Nat) (c : String) (now : Nat),
      (save_digest db p n c now).1 =
        ⟨db.articles, db.bookmarks,
          db.digests ++ [⟨db.next_digest_id, p, n, c, now⟩],
          db.next_bookmark_id, db.next_digest_id + 1⟩ ∧
      (save_digest db p n c now).2 = db.next_digest_id) ∧
    (∀ (db : DB) (p : Nat),
      (get_latest_digest db p = none ↔
        ∀ d ∈ db.digests, d.period_days ≠ p)) ∧
    (∀ (db : DB) (p : Nat) (d : DigestRow),
      get_latest_digest db p = some d →
        d ∈ db.digests ∧ d.period_days = p ∧
        ∀ e ∈ db.digests, e.period_days = p →
          e.created_at ≤ d.created_at) := by
  refine ⟨?_, ?_, ?_⟩
  · intro db p n c now
    exact ⟨rfl, rfl⟩
  · intro db p
    constructor
    · intro h d hd hp
      obtain ⟨-, hfil⟩ := latestFold_none _ _ h
      rw [List.filter_eq_nil_iff] at hfil
      exact hfil d hd (by simpa using hp)
    · intro h
      rw [get_latest_digest]
      have hfil : db.digests.filter (fun d => d.period_days == p) = [] := by
        rw [List.filter_eq_nil_iff]
        intro d hd
        simpa using h d hd
      rw [hfil]
      rfl
  · intro db p d h
    rw [get_latest_digest] at h
    obtain ⟨h1, h2, -⟩ := latestFold_spec _ _ _ h
    have hmem : d ∈ db.digests.filter (fun d => d.period_days == p) := by
      rcases h1 with h1 | h1
      · cases h1
      · exact h1
    rw [List.mem_filter] at hmem
    refine ⟨hmem.1, by simpa using hmem.2, ?_⟩
    intro e he hep
    exact h2 e (List.mem_filter.mpr ⟨he, by simpa using hep⟩)

/-- Closed instance of C4: the single stored digest of `exDigestDB` is
returned for period 7 and is trivially the most recent one. -/
theorem digest_persistence_ops_witness :
    (⟨1, 7, 4, "cached digest", 90000⟩ : DigestRow) ∈ exDigestDB.digests ∧
    (2 : Nat) = (save_digest exDigestDB 7 4 "cached digest" 90000).2 ∧
    get_latest_digest exDigestDB 7 = some ⟨1, 7, 4, "cached digest", 90000⟩ := by
  refine ⟨?_, ?_, by decide⟩
  · exact (digest_persistence_ops.2.2 exDigestDB 7
      ⟨1, 7, 4, "cached digest", 90000⟩ (by decide)).1
  · rw [(digest_persistence_ops.1 exDigestDB 7 4 "cached digest" 90000).2]
    rfl

theorem gog_miss (db : DB) (gen : List ArticleRow → Option String)
    (config : DigestConfig) (now : Nat)
    (hstale : ∀ cached,
      get_latest_digest db config.period_days = some cached →
      ¬(now - cached.created_at < 86400)) :
    get_or_generate_digest db gen config now =
      (if (digest_candidates db config now).isEmpty then
        Except.error DigestError.noArticles
       else match gen (digest_candidates db config now) with
         | none => Except.error DigestError.generationFailed
         | some content =>
           if content.isEmpty then Except.error DigestError.generationFailed
           else Except.ok ((save_digest db config.period_days
               (digest_candidates db config now).length content now).1,
             content, (digest_candidates db config now).length)) := by
  cases hc : get_latest_digest db config.period_days with
  | none => simp only [get_or_generate_digest, hc]
  | some cached =>
    simp only [get_or_generate_digest, hc]
    rw [if_neg (hstale cached hc)]

/-- C3: `get_or_generate_digest` follows the specified algorithm: a cached
digest younger than one day is returned with its stored count, independent
of the AI collaborator and without touching the database; on a cache miss
an empty candidate set yields the no-articles error for every possible AI
collaborator, a null or empty AI result yields the generation error, and a
non-empty result is persisted through `save_digest` and returned together
with the candidate count. -/
theorem get_or_generate_digest_algorithm :
    (∀ (db : DB) (gen : List ArticleRow → Option String)
      (config : DigestConfig) (now : Nat) (cached : DigestRow),
      get_latest_digest db config.period_days = some cached →
      now - cached.created_at < 86400 →
      get_or_generate_digest db gen config now =
        Except.ok (db, cached.content, cached.article_count)) ∧
    (∀ (db : DB) (gen : List ArticleRow → Option String)
      (config : DigestConfig) (now : Nat),
      (∀ cached, get_latest_digest db config.period_days = some cached →
        ¬(now - cached.created_at < 86400)) →
      digest_candidates db config now = [] →
      get_or_generate_digest db gen config now =
        Except.error DigestError.noArticles) ∧
    (∀ (db : DB) (gen : List ArticleRow → Option String)
      (config : DigestConfig) (now : Nat),
      (∀ cached, get_latest_digest db config.period_days = some cached →
        ¬(now - cached.created_at < 86400)) →
      digest_candidates db config now ≠ [] →
      (gen (digest_candidates db config now) = none ∨
        gen (digest_candidates db config now) = some "") →
      get_or_generate_digest db gen config now =
        Except.error DigestError.generationFailed) ∧
    (∀ (db : DB) (gen : List ArticleRow → Option String)
      (config : DigestConfig) (now : Nat) (content : String),
      (∀ cached, get_latest_digest db config.period_days = some cached →
        ¬(now - cached.created_at < 86400)) →
      digest_candidates db config now ≠ [] →
      gen (digest_candidates db config now) = some content →
      content.isEmpty = false →
      get_or_generate_digest db gen config now =
        Except.ok ((save_digest db config.period_days
            (digest_candidates db config now).length content now).1,
          content, (digest_candidates db config now).length)) := by
  refine ⟨?_, ?_, ?_, ?_⟩
  · intro db gen config now cached hc hf
    simp only [get_or_generate_digest, hc]
    rw [if_pos hf]
  · intro db gen config now hstale hempty
    rw [gog_miss db gen config now hstale, hempty]
    rfl
  · intro db gen config now hstale hne hgen
    rw [gog_miss db gen config now hstale]
    rw [if_neg (by simpa using hne)]
    rcases hgen with hgen | hgen <;> (rw [hgen]; try rfl)
  · intro db gen config now content hstale hne hgen hcontent
    rw [gog_miss db gen config now hstale]
    rw [if_neg (by simpa using hne)]
    rw [hgen]
    simp only [hcontent]
    rfl

/-- Closed instances of C3: on `exDigestDB` the fresh cached digest is
served unchanged for any collaborator; the empty database errors with
no-articles; on `exFreshDB` a null collaborator result errors with
generation-failed and a non-empty one is persisted and returned. -/
theorem get_or_generate_digest_algorithm_witness :
    get_or_generate_digest exDigestDB (fun _ => none)
        ⟨true, 7, 20, false, true⟩ 100000 =
      Except.ok (exDigestDB, "cached digest", 4) ∧
    get_or_generate_digest emptyDB (fun _ => some "x")
        ⟨true, 7, 20, false, true⟩ 100000 =
      Except.error DigestError.noArticles ∧
    get_or_generate_digest exFreshDB (fun _ => none)
        ⟨true, 7, 20, false, true⟩ 100000 =
      Except.error DigestError.generationFailed ∧
    get_or_generate_digest exFreshDB (fun _ => some "nd")
        ⟨true, 7, 20, false, true⟩ 100000 =
      Except.ok ((save_digest exFreshDB 7 1 "nd" 100000).1, "nd", 1) := by
  refine ⟨?_, ?_, ?_, ?_⟩
  · exact get_or_generate_digest_algorithm.1 exDigestDB (fun _ => none)
      ⟨true, 7, 20, false, true⟩ 100000 ⟨1, 7, 4, "cached digest", 90000⟩
      (by decide) (by decide)
  · exact get_or_generate_digest_algorithm.2.1 emptyDB (fun _ => some "x")
      ⟨true, 7, 20, false, true⟩ 100000
      (fun c h => Option.noConfusion h) rfl
  · exact get_or_generate_digest_algorithm.2.2.1 exFreshDB (fun _ => none)
      ⟨true, 7, 20, false, true⟩ 100000
      (fun c h => Option.noConfusion h) (by decide) (Or.inl rfl)
  · exact get_or_generate_digest_algorithm.2.2.2 exFreshDB
      (fun _ => some "nd") ⟨true, 7, 20, false, true⟩ 100000 "nd"
      (fun c h => Option.noConfusion h) (by decide) rfl (by decide)

theorem find?_congr_pred {α : Type} (l : List α) (p q : α → Bool)
    (h : ∀ a ∈ l, p a = q a) : l.find? p = l.find? q := by
  induction l with
  | nil => rfl
  | cons x xs ih =>
    rw [List.find?_cons, List.find?_cons, h x (List.mem_cons_self x xs)]
    cases hq : q x with
    | true => rfl
    | false => exact ih (fun a ha => h a (List.mem_cons_of_mem x ha))

theorem pairwise_id_unique {l : List ArticleRow}
    (h : l.Pairwise (fun a b => a.id ≠ b.id)) :
    ∀ a ∈ l, ∀ a2 ∈ l, a.id = a2.id → a = a2 := by
  induction l with
  | nil => simp
  | cons x xs ih =>
    rw [List.pairwise_cons] at h
    intro a ha a2 ha2 hid
    rcases List.mem_cons.mp ha with h1 | h1
    · rcases List.mem_cons.mp ha2 with h2 | h2
      · rw [h1, h2]
      · subst h1
        exact absurd hid (h.1 a2 h2)
    · rcases List.mem_cons.mp ha2 with h2 | h2
      · subst h2
        exact absurd hid.symm (h.1 a h1)
      · exact ih h.2 a h1 a2 h2 hid

theorem set_flag_self (x : ArticleRow) (v : Bool)
    (hv : x.is_bookmarked = v) :
    ({x with is_bookmarked := v} : ArticleRow) = x := by
  cases x
  simp_all

theorem inv_emptyDB : Inv emptyDB := by
  refine ⟨List.Pairwise.nil, ?_, ?_⟩ <;> simp [emptyDB]

theorem inv_article_update (db : DB) (x : String)
    (f : ArticleRow → ArticleRow) (hid : ∀ a, (f a).id = a.id)
    (hbm : ∀ a, (f a).is_bookmarked = a.is_bookmarked) (h : Inv db) :
    Inv ⟨db.articles.map (fun a => if a.id == x then f a else a),
      db.bookmarks, db.digests, db.next_bookmark_id, db.next_digest_id⟩ := by
  obtain ⟨hpw, href, hflag⟩ := h
  have gid : ∀ a : ArticleRow,
      ((if a.id == x then f a else a) : ArticleRow).id = a.id := by
    intro a
    split
    · exact hid a
    · rfl
  have gbm : ∀ a : ArticleRow,
      ((if a.id == x then f a else a) : ArticleRow).is_bookmarked =
        a.is_bookmarked := by
    intro a
    split
    · exact hbm a
    · rfl
  refine ⟨?_, ?_, ?_⟩
  · rw [List.pairwise_map]
    refine hpw.imp ?_
    intro a b hne
    rw [gid, gid]
    exact hne
  · intro b hb
    obtain ⟨a, ha, haid⟩ := href b hb
    exact ⟨_, List.mem_map_of_mem _ ha, by rw [gid]; exact haid⟩
  · intro a' ha'
    obtain ⟨a, ha, rfl⟩ := List.mem_map.mp ha'
    rw [gid, gbm]
    exact hflag a ha

theorem inv_bookmark_update (db : DB) (x : String)
    (f : BookmarkRow → BookmarkRow)
    (hid : ∀ b, (f b).article_id = b.article_id) (h : Inv db) :
    Inv ⟨db.articles,
      db.bookmarks.map (fun b => if b.article_id == x then f b else b),
      db.digests, db.next_bookmark_id, db.next_digest_id⟩ := by
  obtain ⟨hpw, href, hflag⟩ := h
  have gid : ∀ b : BookmarkRow,
      ((if b.article_id == x then f b else b) : BookmarkRow).article_id =
        b.article_id := by
    intro b
    split
    · exact hid b
    · rfl
  refine ⟨hpw, ?_, ?_⟩
  · intro b' hb'
    obtain ⟨b, hb, rfl⟩ := List.mem_map.mp hb'
    rw [gid]
    exact href b hb
  · intro a ha
    rw [hflag a ha]
    constructor
    · rintro ⟨b, hb, hba⟩
      exact ⟨_, List.mem_map_of_mem _ hb, by rw [gid]; exact hba⟩
    · rintro ⟨b', hb', hba⟩
      obtain ⟨b, hb, rfl⟩ := List.mem_map.mp hb'
      rw [gid] at hba
      exact ⟨b, hb, hba⟩

theorem inv_upsert (db : DB) (article_id feed_name title link : String)
    (description : Option String) (published_at : Option Nat) (now : Nat)
    (h : Inv db) :
    Inv (upsert_article db article_id feed_name title link description
      published_at now).1 := by
  obtain ⟨hpw, href, hflag⟩ := h
  cases hany : db.articles.any (fun a => a.id == article_id) with
  | true =>
    rw [upsert_article, if_pos hany]
    exact ⟨hpw, href, hflag⟩
  | false =>
    rw [upsert_article, if_neg (by rw [hany]; exact Bool.false_ne_true)]
    rw [List.any_eq_false] at hany
    refine ⟨?_, ?_, ?_⟩
    · rw [List.pairwise_append]
      refine ⟨hpw, List.pairwise_singleton _ _, ?_⟩
      intro a ha r hr
      rw [List.mem_singleton] at hr
      subst hr
      intro hcontra
      exact hany a ha (by simpa using hcontra)
    · intro b hb
      obtain ⟨a, ha, haid⟩ := href b hb
      exact ⟨a, List.mem_append_left _ ha, haid⟩
    · intro a ha
      rcases List.mem_append.mp ha with ha | ha
      · exact hflag a ha
      · rw [List.mem_singleton] at ha
        subst ha
        simp only [Bool.false_eq_true, false_iff]
        rintro ⟨b, hb, hba⟩
        obtain ⟨a2, ha2, ha2id⟩ := href b hb
        exact hany a2 ha2 (by simp [ha2id, hba])

theorem toggle_eq_none (db : DB) (article_id : String) (now : Nat)
    (hg : get_article db article_id = none) :
    toggle_bookmark db article_id now = (db, false) := by
  simp only [toggle_bookmark, hg]

theorem toggle_eq_on (db : DB) (article_id : String) (now : Nat)
    (a : ArticleRow) (hg : get_article db article_id = some a)
    (hbm : a.is_bookmarked = false) :
    toggle_bookmark db article_id now =
      (⟨db.articles.map (fun x =>
          if x.id == article_id then {x with is_bookmarked := true} else x),
        db.bookmarks ++ [⟨db.next_bookmark_id, article_id, now, none, none⟩],
        db.digests, db.next_bookmark_id + 1, db.next_digest_id⟩, true) := by
  simp only [toggle_bookmark, hg, hbm, Bool.not_false, if_true]

theorem toggle_eq_off (db : DB) (article_id : String) (now : Nat)
    (a : ArticleRow) (hg : get_article db article_id = some a)
    (hbm : a.is_bookmarked = true) :
    toggle_bookmark db article_id now =
      (⟨db.articles.map (fun x =>
          if x.id == article_id then {x with is_bookmarked := false} else x),
        db.bookmarks.filter (fun b => !(b.article_id == article_id)),
        db.digests, db.next_bookmark_id, db.next_digest_id⟩, false) := by
  simp only [toggle_bookmark, hg, hbm, Bool.not_true, Bool.false_eq_true,
    if_false]

theorem inv_toggle (db : DB) (article_id : String) (now : Nat)
    (h : Inv db) : Inv (toggle_bookmark db article_id now).1 := by
  obtain ⟨hpw, href, hflag⟩ := h
  cases hg : get_article db article_id with
  | none =>
    rw [toggle_eq_none db article_id now hg]
    exact ⟨hpw, href, hflag⟩
  | some a =>
    have hmem : a ∈ db.articles := List.mem_of_find?_eq_some hg
    have haid : a.id = article_id := by simpa using List.find?_some hg
    cases hbm : a.is_bookmarked with
    | false =>
      rw [toggle_eq_on db article_id now a hg hbm]
      have gid : ∀ x : ArticleRow,
          ((if x.id == article_id then {x with is_bookmarked := true}
            else x) : ArticleRow).id = x.id := by
        intro x
        split <;> rfl
      refine ⟨?_, ?_, ?_⟩
      · rw [List.pairwise_map]
        refine hpw.imp ?_
        intro p q hne
        rw [gid, gid]
        exact hne
      · intro b hb
        rcases List.mem_append.mp hb with hb | hb
        · obtain ⟨a2, ha2, ha2id⟩ := href b hb
          exact ⟨_, List.mem_map_of_mem _ ha2, by rw [gid]; exact ha2id⟩
        · rw [List.mem_singleton] at hb
          subst hb
          exact ⟨_, List.mem_map_of_mem _ hmem, by rw [gid]; exact haid⟩
      · intro a' ha'
        obtain ⟨x, hx, rfl⟩ := List.mem_map.mp ha'
        by_cases hxid : x.id = article_id
        · rw [if_pos (beq_iff_eq.mpr hxid)]
          constructor
          · intro _
            refine ⟨⟨db.next_bookmark_id, article_id, now, none, none⟩,
              List.mem_append_right _ (List.mem_singleton_self _), ?_⟩
            exact hxid.symm
          · intro _
            rfl
        · rw [if_neg (by simpa using hxid)]
          rw [hflag x hx]
          constructor
          · rintro ⟨b, hb, hba⟩
            exact ⟨b, List.mem_append_left _ hb, hba⟩
          · rintro ⟨b, hb, hba⟩
            rcases List.mem_append.mp hb with hb | hb
            · exact ⟨b, hb, hba⟩
            · rw [List.mem_singleton] at hb
              subst hb
              exact absurd hba.symm hxid
    | true =>
      rw [toggle_eq_off db article_id now a hg hbm]
      have gid : ∀ x : ArticleRow,
          ((if x.id == article_id then {x with is_bookmarked := false}
            else x) : ArticleRow).id = x.id := by
        intro x
        split <;> rfl
      refine ⟨?_, ?_, ?_⟩
      · rw [List.pairwise_map]
        refine hpw.imp ?_
        intro p q hne
        rw [gid, gid]
        exact hne
      · intro b hb
        rw [List.mem_filter] at hb
        obtain ⟨a2, ha2, ha2id⟩ := href b hb.1
        exact ⟨_, List.mem_map_of_mem _ ha2, by rw [gid]; exact ha2id⟩
      · intro a' ha'
        obtain ⟨x, hx, rfl⟩ := List.mem_map.mp ha'
        by_cases hxid : x.id = article_id
        · rw [if_pos (beq_iff_eq.mpr hxid)]
          simp only [Bool.false_eq_true, false_iff]
          rintro ⟨b, hb, hba⟩
          rw [List.mem_filter] at hb
          have : b.article_id = article_id := by
            have := hba
            simpa [hxid] using this
          exact absurd (beq_iff_eq.mpr this) (by simpa using hb.2)
        · rw [if_neg (by simpa using hxid)]
          rw [hflag x hx]
          constructor
          · rintro ⟨b, hb, hba⟩
            refine ⟨b, List.mem_filter.mpr ⟨hb, ?_⟩, hba⟩
            simp only [Bool.not_eq_true', beq_eq_false_iff_ne]
            rw [hba]
            exact hxid
          · rintro ⟨b, hb, hba⟩
            rw [List.mem_filter] at hb
            exact ⟨b, hb.1, hba⟩

theorem inv_delete (db : DB) (feed_name : String) (h : Inv db) :
    Inv (delete_articles_by_feed db feed_name).1 := by
  obtain ⟨hpw, href, hflag⟩ := h
  simp only [Inv, delete_articles_by_feed]
  refine ⟨?_, ?_, ?_⟩
  · exact hpw.sublist (List.filter_sublist _)
  · intro b hb
    rw [List.mem_filter] at hb
    obtain ⟨a2, ha2, ha2id⟩ := href b hb.1
    refine ⟨a2, List.mem_filter.mpr ⟨ha2, ?_⟩, ha2id⟩
    simp only [Bool.not_eq_true', beq_eq_false_iff_ne]
    intro hfeed
    have hdoomed : a2 ∈ db.articles.filter
        (fun x => x.feed_name == feed_name) :=
      List.mem_filter.mpr ⟨ha2, beq_iff_eq.mpr hfeed⟩
    have := hb.2
    rw [Bool.not_eq_true', List.any_eq_false] at this
    exact absurd (beq_iff_eq.mpr ha2id) (this a2 hdoomed)
  · intro a' ha'
    rw [List.mem_filter] at ha'
    obtain ⟨ha, hnf⟩ := ha'
    have hnf2 : a'.feed_name ≠ feed_name := by
      rw [Bool.not_eq_true', beq_eq_false_iff_ne] at hnf
      exact hnf
    rw [hflag a' ha]
    constructor
    · rintro ⟨b, hb, hba⟩
      refine ⟨b, List.mem_filter.mpr ⟨hb, ?_⟩, hba⟩
      rw [Bool.not_eq_true', List.any_eq_false]
      intro aD hD
      rw [List.mem_filter] at hD
      intro hDid0
      have hDid : aD.id = b.article_id := beq_iff_eq.mp hDid0
      have haD : aD = a' :=
        pairwise_id_unique hpw aD hD.1 a' ha (by rw [hDid, hba])
      rw [haD] at hD
      exact hnf2 (beq_iff_eq.mp hD.2)
    · rintro ⟨b, hb, hba⟩
      rw [List.mem_filter] at hb
      exact ⟨b, hb.1, hba⟩

theorem reachable_inv {db : DB} (h : Reachable db) : Inv db := by
  induction h with
  | init => exact inv_emptyDB
  | upsert db article_id feed_name title link description published_at
      now hr ih =>
    exact inv_upsert db article_id feed_name title link description
      published_at now ih
  | markRead db article_id hr ih =>
    exact inv_article_update db article_id
      (fun a => {a with is_read := true}) (fun a => rfl) (fun a => rfl) ih
  | toggle db article_id now hr ih => exact inv_toggle db article_id now ih
  | setInsight db article_id insight hr ih =>
    exact inv_article_update db article_id
      (fun a => {a with insight := some insight}) (fun a => rfl)
      (fun a => rfl) ih
  | setTranslation db article_id title desc hr ih =>
    exact inv_article_update db article_id
      (fun a => {a with translated_title := some title, translated_desc := some desc})
      (fun a => rfl) (fun a => rfl) ih
  | setTranslatedBody db article_id body hr ih =>
    exact inv_article_update db article_id
      (fun a => {a with translated_body := some body}) (fun a => rfl)
      (fun a => rfl) ih
  | setMemo db article_id memo hr ih =>
    exact inv_bookmark_update db article_id
      (fun b => {b with memo := some memo}) (fun b => rfl) ih
  | setTags db article_id tags hr ih =>
    exact inv_bookmark_update db article_id _ (fun b => rfl) ih
  | deleteFeed db feed_name hr ih => exact inv_delete db feed_name ih
  | saveDigest db period_days article_count content now hr ih => exact ih

theorem find?_set_flag (l : List ArticleRow) (article_id : String)
    (v : Bool) :
    ∀ (a : ArticleRow), l.find? (fun x => x.id == article_id) = some a →
      (l.map (fun x =>
        if x.id == article_id then {x with is_bookmarked := v} else x)).find?
        (fun x => x.id == article_id) = some {a with is_bookmarked := v} := by
  induction l with
  | nil =>
    intro a h
    cases h
  | cons x xs ih =>
    intro a h
    by_cases hx : (x.id == article_id) = true
    · rw [List.find?_cons_of_pos xs hx] at h
      cases h
      simp only [List.map_cons]
      rw [if_pos hx]
      exact List.find?_cons_of_pos _ hx
    · rw [List.find?_cons_of_neg xs (by simpa using hx)] at h
      simp only [List.map_cons]
      rw [if_neg hx]
      rw [List.find?_cons_of_neg _ (by simpa using hx)]
      exact ih a h

theorem toggle_fst_on (db : DB) (article_id : String) (now : Nat)
    (a : ArticleRow) (hg : get_article db article_id = some a)
    (hbm : a.is_bookmarked = false) :
    (toggle_bookmark db article_id now).1 =
      ⟨db.articles.map (fun x =>
          if x.id == article_id then {x with is_bookmarked := true} else x),
        db.bookmarks ++ [⟨db.next_bookmark_id, article_id, now, none, none⟩],
        db.digests, db.next_bookmark_id + 1, db.next_digest_id⟩ := by
  rw [toggle_eq_on db article_id now a hg hbm]

theorem toggle_fst_off (db : DB) (article_id : String) (now : Nat)
    (a : ArticleRow) (hg : get_article db article_id = some a)
    (hbm : a.is_bookmarked = true) :
    (toggle_bookmark db article_id now).1 =
      ⟨db.articles.map (fun x =>
          if x.id == article_id then {x with is_bookmarked := false} else x),
        db.bookmarks.filter (fun b => !(b.article_id == article_id)),
        db.digests, db.next_bookmark_id, db.next_digest_id⟩ := by
  rw [toggle_eq_off db article_id now a hg hbm]

theorem toggle_fst_on_parts (arts : List ArticleRow)
    (bks : List BookmarkRow) (digs : List DigestRow) (nb nd : Nat)
    (article_id : String) (now : Nat) (a : ArticleRow)
    (hg : arts.find? (fun x => x.id == article_id) = some a)
    (hbm : a.is_bookmarked = false) :
    (toggle_bookmark ⟨arts, bks, digs, nb, nd⟩ article_id now).1 =
      ⟨arts.map (fun x =>
          if x.id == article_id then {x with is_bookmarked := true} else x),
        bks ++ [⟨nb, article_id, now, none, none⟩], digs, nb + 1, nd⟩ :=
  toggle_fst_on ⟨arts, bks, digs, nb, nd⟩ article_id now a hg hbm

theorem toggle_fst_off_parts (arts : List ArticleRow)
    (bks : List BookmarkRow) (digs : List DigestRow) (nb nd : Nat)
    (article_id : String) (now : Nat) (a : ArticleRow)
    (hg : arts.find? (fun x => x.id == article_id) = some a)
    (hbm : a.is_bookmarked = true) :
    (toggle_bookmark ⟨arts, bks, digs, nb, nd⟩ article_id now).1 =
      ⟨arts.map (fun x =>
          if x.id == article_id then {x with is_bookmarked := false} else x),
        bks.filter (fun b => !(b.article_id == article_id)), digs, nb,
        nd⟩ :=
  toggle_fst_off ⟨arts, bks, digs, nb, nd⟩ article_id now a hg hbm

theorem toggle_twice_from_off (db : DB) (article_id : String) (n1 n2 : Nat)
    (hpw : db.articles.Pairwise (fun p q => p.id ≠ q.id))
    (hnorow : ∀ b ∈ db.bookmarks, b.article_id ≠ article_id)
    (a : ArticleRow) (hg : get_article db article_id = some a)
    (hbm : a.is_bookmarked = false) :
    (toggle_bookmark (toggle_bookmark db article_id n1).1 article_id
      n2).1 =
      ⟨db.articles, db.bookmarks, db.digests, db.next_bookmark_id + 1,
        db.next_digest_id⟩ := by
  rw [toggle_fst_on db article_id n1 a hg hbm]
  rw [toggle_fst_off_parts _ _ _ _ _ article_id n2
    {a with is_bookmarked := true}
    (find?_set_flag db.articles article_id true a hg) rfl]
  have haid : a.id = article_id := by simpa using List.find?_some hg
  have hmem : a ∈ db.articles := List.mem_of_find?_eq_some hg
  have harts : db.articles.map ((fun x =>
      if x.id == article_id then {x with is_bookmarked := false} else x) ∘
      (fun x =>
        if x.id == article_id then {x with is_bookmarked := true} else x)) =
      db.articles.map id := by
    refine List.map_congr_left ?_
    intro x hx
    simp only [Function.comp, id]
    by_cases hxi : (x.id == article_id) = true
    · rw [if_pos hxi, if_pos hxi]
      have hxa : x = a := pairwise_id_unique hpw x hx a hmem
        (by rw [beq_iff_eq.mp hxi, haid])
      exact set_flag_self x false (by rw [hxa, hbm])
    · rw [if_neg hxi, if_neg hxi]
  have hbks : (db.bookmarks ++
      [(⟨db.next_bookmark_id, article_id, n1, none, none⟩ :
        BookmarkRow)]).filter
      (fun b => !(b.article_id == article_id)) = db.bookmarks := by
    rw [List.filter_append]
    have h1 : List.filter (fun b => !(b.article_id == article_id))
        [(⟨db.next_bookmark_id, article_id, n1, none, none⟩ :
          BookmarkRow)] = [] := by
      simp
    have h2 : db.bookmarks.filter
        (fun b => !(b.article_id == article_id)) = db.bookmarks :=
      List.filter_eq_self.mpr (fun b hb => by simpa using hnorow b hb)
    rw [h1, h2, List.append_nil]
  rw [List.map_map, harts, List.map_id, hbks]

theorem toggle_twice_from_on (db : DB) (article_id : String) (n1 n2 : Nat)
    (hpw : db.articles.Pairwise (fun p q => p.id ≠ q.id))
    (a : ArticleRow) (hg : get_article db article_id = some a)
    (hbm : a.is_bookmarked = true) :
    (toggle_bookmark (toggle_bookmark db article_id n1).1 article_id
      n2).1 =
      ⟨db.articles,
        db.bookmarks.filter (fun b => !(b.article_id == article_id)) ++
          [⟨db.next_bookmark_id, article_id, n2, none, none⟩],
        db.digests, db.next_bookmark_id + 1, db.next_digest_id⟩ := by
  rw [toggle_fst_off db article_id n1 a hg hbm]
  rw [toggle_fst_on_parts _ _ _ _ _ article_id n2
    {a with is_bookmarked := false}
    (find?_set_flag db.articles article_id false a hg) rfl]
  have haid : a.id = article_id := by simpa using List.find?_some hg
  have hmem : a ∈ db.articles := List.mem_of_find?_eq_some hg
  have harts : db.articles.map ((fun x =>
      if x.id == article_id then {x with is_bookmarked := true} else x) ∘
      (fun x =>
        if x.id == article_id then {x with is_bookmarked := false} else x)) =
      db.articles.map id := by
    refine List.map_congr_left ?_
    intro x hx
    simp only [Function.comp, id]
    by_cases hxi : (x.id == article_id) = true
    · rw [if_pos hxi, if_pos hxi]
      have hxa : x = a := pairwise_id_unique hpw x hx a hmem
        (by rw [beq_iff_eq.mp hxi, haid])
      exact set_flag_self x true (by rw [hxa, hbm])
    · rw [if_neg hxi, if_neg hxi]
  rw [List.map_map, harts, List.map_id]

/-- C1: in every reachable database state an article's bookmarked flag is
true exactly when a bookmarks row referencing its id exists, and toggling
any article id twice restores every articles row (hence the flag) and the
presence or absence of a bookmarks row for that id to their original
state. -/
theorem bookmark_flag_consistency (db : DB) (h : Reachable db) :
    (∀ a ∈ db.articles,
      (a.is_bookmarked = true ↔ ∃ b ∈ db.bookmarks, b.article_id = a.id)) ∧
    (∀ (article_id : String) (n1 n2 : Nat),
      (toggle_bookmark (toggle_bookmark db article_id n1).1 article_id
        n2).1.articles = db.articles ∧
      ((∃ b ∈ (toggle_bookmark (toggle_bookmark db article_id n1).1
          article_id n2).1.bookmarks, b.article_id = article_id) ↔
        ∃ b ∈ db.bookmarks, b.article_id = article_id)) := by
  obtain ⟨hpw, href, hflag⟩ := reachable_inv h
  refine ⟨hflag, ?_⟩
  intro article_id n1 n2
  cases hg : get_article db article_id with
  | none =>
    rw [toggle_eq_none db article_id n1 hg, toggle_eq_none db article_id
      n2 hg]
    exact ⟨rfl, Iff.rfl⟩
  | some a =>
    have hmem : a ∈ db.articles := List.mem_of_find?_eq_some hg
    have haid : a.id = article_id := by simpa using List.find?_some hg
    cases hbm : a.is_bookmarked with
    | false =>
      have hnorow : ∀ b ∈ db.bookmarks, b.article_id ≠ article_id := by
        intro b hb hba
        have hcontra : a.is_bookmarked = true :=
          (hflag a hmem).mpr ⟨b, hb, by rw [hba, haid]⟩
        rw [hbm] at hcontra
        exact absurd hcontra Bool.false_ne_true
      rw [toggle_twice_from_off db article_id n1 n2 hpw hnorow a hg hbm]
      exact ⟨rfl, Iff.rfl⟩
    | true =>
      rw [toggle_twice_from_on db article_id n1 n2 hpw a hg hbm]
      refine ⟨rfl, ?_⟩
      constructor
      · intro _
        obtain ⟨b, hb, hba⟩ := (hflag a hmem).mp hbm
        exact ⟨b, hb, by rw [hba, haid]⟩
      · intro _
        exact ⟨⟨db.next_bookmark_id, article_id, n2, none, none⟩,
          List.mem_append_right _ (List.mem_singleton_self _), rfl⟩

/-- Closed instance of C1: in the reachable state built by upserting one
article into a fresh database and bookmarking it, the flag/row invariant
and the double-toggle round trip hold. -/
theorem bookmark_flag_consistency_witness :
    (∀ a ∈ (toggle_bookmark (upsert_article emptyDB "a" "f" "t" "l" none
        none 10).1 "a" 20).1.articles,
      (a.is_bookmarked = true ↔
        ∃ b ∈ (toggle_bookmark (upsert_article emptyDB "a" "f" "t" "l"
          none none 10).1 "a" 20).1.bookmarks, b.article_id = a.id)) ∧
    (∀ (article_id : String) (n1 n2 : Nat),
      (toggle_bookmark (toggle_bookmark (toggle_bookmark (upsert_article
        emptyDB "a" "f" "t" "l" none none 10).1 "a" 20).1 article_id
        n1).1 article_id n2).1.articles =
        (toggle_bookmark (upsert_article emptyDB "a" "f" "t" "l" none
          none 10).1 "a" 20).1.articles ∧
      ((∃ b ∈ (toggle_bookmark (toggle_bookmark (toggle_bookmark
          (upsert_article emptyDB "a" "f" "t" "l" none none 10).1 "a"
          20).1 article_id n1).1 article_id n2).1.bookmarks,
          b.article_id = article_id) ↔
        ∃ b ∈ (toggle_bookmark (upsert_article emptyDB "a" "f" "t" "l"
          none none 10).1 "a" 20).1.bookmarks,
          b.article_id = article_id)) :=
  bookmark_flag_consistency
    (toggle_bookmark (upsert_article emptyDB "a" "f" "t" "l" none none
      10).1 "a" 20).1
    (Reachable.toggle _ "a" 20
      (Reachable.upsert emptyDB "a" "f" "t" "l" none none 10
        Reachable.init))

end HawaiiDisco
